import Mathlib

/-!
# rtc-rtmp: the RTMP to WebRTC streamer (`streamer.go`)

A shallow embedding of `RtmpRtcStreamer` and its methods.

* Bytes are natural numbers, byte slices are lists.
* `time.Duration` is an `Int` (nanoseconds); the two conversions to `uint64`
  and `uint32` of the sample computations are written with explicit `%`.
* The collaborators that live in other packages (the peer connection, the
  two tracks, the RTMP connection, the audio transformer and
  `h264.SplitNALUs`) are the fields of `Env`.  Every call to one of them is
  appended to the streamer's `trace`, and a collaborator may answer
  according to everything that happened before (it receives the trace).
* A Go run-time panic is the `error` case of `Except Panic`; `SplitNALUs`
  may panic too (it slices the payload by the lengths it reads in it).
-/

namespace RtcRtmp

/-- The `naluHeader` variable: the four byte Annex-B start code. -/
def naluHeader : List Nat := [0, 0, 0, 1]

/-- The `av.CodecType` values the streamer can tell apart: `H264`, `AAC`, and
any other type, of which only `IsVideo` is looked at. -/
inductive CodecType
  | H264
  | AAC
  | other (video : Bool)
  deriving DecidableEq, Repr

/-- The method `CodecType.IsVideo`. -/
def CodecType.IsVideo : CodecType → Bool
  | .H264 => true
  | .AAC => false
  | .other v => v

/-- What the streamer reads of a `h264.CodecData`: the two parameter sets. -/
structure H264CodecData where
  SPS : List Nat
  PPS : List Nat
  deriving DecidableEq, Repr

/-- What the streamer reads of an `aac.CodecData`. -/
structure AACCodecData where
  SampleRate : Nat
  ChannelLayout : Nat
  SampleFormat : Nat
  deriving DecidableEq, Repr

/-- One entry of `conn.Streams()`, an `av.CodecData`. -/
inductive CodecData
  | h264 (c : H264CodecData)
  | aac (c : AACCodecData)
  | other (video : Bool)
  deriving DecidableEq, Repr

/-- The method `CodecData.Type` (`Type` is a reserved word of Lean). -/
def CodecData.Type_ : CodecData → CodecType
  | .h264 _ => .H264
  | .aac _ => .AAC
  | .other v => .other v

/-- The fields of `av.Packet` the streamer reads. -/
structure Packet where
  Idx : Int
  Time : Int
  Data : List Nat
  IsKeyFrame : Bool
  deriving DecidableEq, Repr

/-- A `media.Sample`. -/
structure Sample where
  Data : List Nat
  Samples : Nat
  deriving DecidableEq, Repr

/-- The two values of `webrtc.SDPType` the streamer compares with, and the rest. -/
inductive SDPType
  | Offer
  | Answer
  | unknown
  deriving DecidableEq, Repr

/-- A `webrtc.SessionDescription`; `Type_` is its field `Type`. -/
structure SessionDescription where
  Type_ : SDPType
  SDP : String
  deriving DecidableEq, Repr

/-- The two output tracks. -/
inductive Track
  | audio
  | video
  deriving DecidableEq, Repr

/-- A Go `error` value: `none` is `nil`. -/
abbrev GoError := Option String

/-- A call the streamer made to a collaborator, or a line it printed.
`writeSample` also records the error the track answered and the values the
two time fields held when the call was made. -/
inductive Event
  | createOffer
  | createAnswer
  | setLocalDescription (sdp : SessionDescription)
  | setRemoteDescription (sdp : SessionDescription)
  | goPullStream
  | pcClose
  | connClose
  | dial (url : String)
  | streamsCall
  | transformSetup (c : AACCodecData)
  | transformDo (p : Packet)
  | writeSample (t : Track) (s : Sample) (err : GoError)
      (lastVideoTime lastAudioTime : Int)
  | printPrefix
  | printTransformError
  | printSamples (samples : Nat) (inTime outTime : Int)
  deriving DecidableEq, Repr

/-- A run-time panic of the Go program. -/
inductive Panic
  | indexOutOfRange (index : Int) (length : Nat)
  | sliceBoundsOutOfRange (high : Nat) (length : Nat)
  | nilPointerDereference
  | explicit (err : String)
  deriving DecidableEq, Repr

/-- The collaborators.  Each one sees the trace of the calls made so far. -/
structure Env where
  CreateOffer : List Event → SessionDescription × GoError
  CreateAnswer : List Event → SessionDescription × GoError
  SetLocalDescription : List Event → SessionDescription → GoError
  SetRemoteDescription : List Event → SessionDescription → GoError
  Dial : List Event → String → GoError
  Streams : List Event → List CodecData × GoError
  transformDo : List Event → Packet → List Packet × GoError
  WriteSample : List Event → Track → Sample → GoError
  SplitNALUs : List Nat → Except Panic (List (List Nat))

/-- The struct `RtmpRtcStreamer`.  `conn` tells whether `r.conn` was set, the
handles of the peer connection, the tracks and the transformer are
represented by `trace`. -/
structure RtmpRtcStreamer where
  streams : List CodecData
  videoCodec : H264CodecData
  audioCodec : AACCodecData
  localSDP : String
  remoteSDP : String
  lastVideoTime : Int
  lastAudioTime : Int
  streamURL : String
  conn : Bool
  closed : Bool
  trace : List Event
  deriving DecidableEq, Repr

/-- The streamer `NewRtmpRtcStreamer` returns when none of its set-up calls fails. -/
def NewRtmpRtcStreamer (streamURL : String) : RtmpRtcStreamer :=
  { streams := [], videoCodec := ⟨[], []⟩, audioCodec := ⟨0, 0, 0⟩,
    localSDP := "", remoteSDP := "", lastVideoTime := 0, lastAudioTime := 0,
    streamURL := streamURL, conn := false, closed := false, trace := [] }

/-! ## Signalling -/

/-- The method `GetLocalSDP`: the new streamer, the string and the error. -/
def GetLocalSDP (env : Env) (r : RtmpRtcStreamer) (sdpType : SDPType) :
    RtmpRtcStreamer × String × GoError :=
  if r.localSDP = "" then
    let created :=
      if sdpType = SDPType.Offer then
        (env.CreateOffer r.trace, r.trace ++ [Event.createOffer])
      else
        (env.CreateAnswer r.trace, r.trace ++ [Event.createAnswer])
    let sdp := created.1.1
    let tr := created.2
    -- `err` of the creation is overwritten here
    let err := env.SetLocalDescription tr sdp
    let r1 := { r with localSDP := sdp.SDP, trace := tr ++ [Event.setLocalDescription sdp] }
    (r1, r1.localSDP, err)
  else
    (r, r.localSDP, none)

/-- The method `SetRemoteSDP`. -/
def SetRemoteSDP (env : Env) (r : RtmpRtcStreamer) (sdpStr : String) (sdpType : SDPType) :
    RtmpRtcStreamer × GoError :=
  let sdp : SessionDescription := ⟨sdpType, sdpStr⟩
  let err := env.SetRemoteDescription r.trace sdp
  ({ r with remoteSDP := sdpStr, trace := r.trace ++ [Event.setRemoteDescription sdp] }, err)

/-- The method `onConnectionState`; `connected` tells whether the state is
`PeerConnectionStateConnected`.  The started goroutine is the event
`goPullStream`; its body runs as the steps `PullStreamStart` and `PullStreamPacket`. -/
def onConnectionState (r : RtmpRtcStreamer) (connected : Bool) : RtmpRtcStreamer :=
  if connected then { r with trace := r.trace ++ [Event.goPullStream] } else r

/-- The method `Close`.  `r.conn` is nil until `PullStream` has dialled, and
`r.conn.Close()` on the nil connection is a nil pointer dereference; by then
`closed` is set and `pc.Close()` was called. -/
def Close (r : RtmpRtcStreamer) : Except Panic RtmpRtcStreamer :=
  if r.closed then .ok r
  else
    let r1 := { r with closed := true }
    let r2 := { r1 with trace := r1.trace ++ [Event.pcClose] }
    if r2.conn then .ok { r2 with trace := r2.trace ++ [Event.connClose] }
    else .error Panic.nilPointerDereference

/-! ## The media relay -/

/-- A call `track.WriteSample(s)` of `r.videoTrack` or `r.audioTrack`; the
streamer drops the error the track returns. -/
def TrackWriteSample (env : Env) (r : RtmpRtcStreamer) (t : Track) (s : Sample) :
    RtmpRtcStreamer :=
  { r with trace := r.trace ++
      [Event.writeSample t s (env.WriteSample r.trace t s) r.lastVideoTime r.lastAudioTime] }

/-- The body of the loop over `r.streams` in `PullStream`. -/
def configureStream (r : RtmpRtcStreamer) (stream : CodecData) : RtmpRtcStreamer :=
  match stream with
  | .h264 c => { r with videoCodec := c }
  | .aac c => { r with audioCodec := c, trace := r.trace ++ [Event.transformSetup c] }
  | .other _ => r

/-- The part of `PullStream` before the read loop: dial, fetch the streams,
configure the codecs.  A failed `Dial` or `Streams` panics. -/
def PullStreamStart (env : Env) (r : RtmpRtcStreamer) : Except Panic RtmpRtcStreamer :=
  match env.Dial r.trace r.streamURL with
  | some e => .error (.explicit e)
  | none =>
    let r1 := { r with conn := true, trace := r.trace ++ [Event.dial r.streamURL] }
    let res := env.Streams r1.trace
    let r2 := { r1 with streams := res.1, trace := r1.trace ++ [Event.streamsCall] }
    match res.2 with
    | some e => .error (.explicit e)
    | none => .ok (r2.streams.foldl configureStream r2)

/-- The index expression `b[i]` on a byte slice. -/
def byteAt (b : List Nat) (i : Nat) : Except Panic Nat :=
  match b[i]? with
  | some x => .ok x
  | none => .error (.indexOutOfRange i b.length)

/-- The condition `Data[0] == 0 && Data[1] == 0 && Data[2] == 0 && Data[3] == 1`,
evaluated from left to right; an index is read only when the comparisons
before it held. -/
def hasNaluHeader (data : List Nat) : Except Panic Bool := do
  let b0 ← byteAt data 0
  if b0 = 0 then
    let b1 ← byteAt data 1
    if b1 = 0 then
      let b2 ← byteAt data 2
      if b2 = 0 then
        let b3 ← byteAt data 3
        pure (decide (b3 = 1))
      else pure false
    else pure false
  else pure false

/-- The video sample count: `uint32(uint64(Time-lastVideoTime) * 90000 / 1000000000)`,
or 0 while `lastVideoTime` is 0. -/
def videoSamples (lastVideoTime time : Int) : Nat :=
  if lastVideoTime = 0 then 0
  else ((((time - lastVideoTime) % 2 ^ 64).toNat * 90000 % 2 ^ 64) / 1000000000) % 2 ^ 32

/-- The audio sample count that is computed and printed:
`uint32(uint64((Time-lastAudioTime)*48000) / 1000000000)`, or 0 while
`lastAudioTime` is 0. -/
def audioSamples (lastAudioTime time : Int) : Nat :=
  if lastAudioTime = 0 then 0
  else ((((time - lastAudioTime) * 48000) % 2 ^ 64).toNat / 1000000000) % 2 ^ 32

/-- The buffer `b` of the video branch before the payload is looked at. -/
def parameterSets (r : RtmpRtcStreamer) (packet : Packet) : List Nat :=
  if packet.IsKeyFrame then
    ((([] ++ naluHeader) ++ r.videoCodec.SPS) ++ naluHeader) ++ r.videoCodec.PPS
  else []

/-- The video branch of the read loop. -/
def videoPath (env : Env) (r : RtmpRtcStreamer) (packet : Packet) :
    Except Panic RtmpRtcStreamer := do
  let samples := videoSamples r.lastVideoTime packet.Time
  let b := parameterSets r packet
  let startCode ← hasNaluHeader packet.Data
  if startCode then
    let r1 := { r with trace := r.trace ++ [Event.printPrefix] }
    let r2 := TrackWriteSample env r1 Track.video ⟨b ++ packet.Data, samples⟩
    pure { r2 with lastVideoTime := packet.Time }
  else
    let nalus ← env.SplitNALUs packet.Data
    let b1 := nalus.foldl (fun acc nalu => (acc ++ naluHeader) ++ nalu) b
    let r2 := TrackWriteSample env r Track.video ⟨b1, samples⟩
    pure { r2 with lastVideoTime := packet.Time }

/-- The body of the loop over the packets the transformer returned. -/
def audioOutput (env : Env) (packet : Packet) (r : RtmpRtcStreamer) (pkt : Packet) :
    RtmpRtcStreamer :=
  let samples := audioSamples r.lastAudioTime pkt.Time
  let r1 := { r with trace := r.trace ++ [Event.printSamples samples packet.Time pkt.Time] }
  let r2 := { r1 with lastAudioTime := pkt.Time }
  TrackWriteSample env r2 Track.audio ⟨pkt.Data, 960⟩

/-- The audio branch of the read loop. -/
def audioPath (env : Env) (r : RtmpRtcStreamer) (packet : Packet) : RtmpRtcStreamer :=
  let res := env.transformDo r.trace packet
  let r1 := { r with trace := r.trace ++ [Event.transformDo packet] }
  match res.2 with
  | some _ => { r1 with trace := r1.trace ++ [Event.printTransformError] }
  | none => res.1.foldl (audioOutput env packet) r1

/-- The expression `r.streams[packet.Idx]`. -/
def streamAt (r : RtmpRtcStreamer) (idx : Int) : Except Panic CodecData :=
  match (if 0 ≤ idx then r.streams[idx.toNat]? else none) with
  | some s => .ok s
  | none => .error (.indexOutOfRange idx r.streams.length)

/-- One turn of the read loop for a packet `ReadPacket` returned without error. -/
def PullStreamPacket (env : Env) (r : RtmpRtcStreamer) (packet : Packet) :
    Except Panic RtmpRtcStreamer := do
  let stream ← streamAt r packet.Idx
  if stream.Type_.IsVideo then videoPath env r packet
  else if stream.Type_ = CodecType.AAC then pure (audioPath env r packet)
  else pure r

/-- The read loop: `packets` are the packets `ReadPacket` returns before its
first error, which ends the loop. -/
def readLoop (env : Env) (r : RtmpRtcStreamer) : List Packet → Except Panic RtmpRtcStreamer
  | [] => .ok r
  | packet :: rest =>
    match PullStreamPacket env r packet with
    | .ok r1 => readLoop env r1 rest
    | .error e => .error e

/-- The method `PullStream`. -/
def PullStream (env : Env) (r : RtmpRtcStreamer) (packets : List Packet) :
    Except Panic RtmpRtcStreamer :=
  match PullStreamStart env r with
  | .ok r1 => readLoop env r1 packets
  | .error e => .error e

/-! ## Observations on the trace -/

/-- The samples written to track `t`, in the order of the calls. -/
def written (t : Track) (tr : List Event) : List Sample :=
  tr.filterMap fun e =>
    match e with
    | .writeSample t1 s _ _ _ => if t1 = t then some s else none
    | _ => none

/-- The number of `pc.Close()` calls. -/
def pcReleases (tr : List Event) : Nat :=
  tr.countP fun e => match e with | .pcClose => true | _ => false

/-- The number of `conn.Close()` calls. -/
def connReleases (tr : List Event) : Nat :=
  tr.countP fun e => match e with | .connClose => true | _ => false

/-- The number of `CreateOffer` and `CreateAnswer` calls. -/
def syntheses (tr : List Event) : Nat :=
  tr.countP fun e => match e with | .createOffer => true | .createAnswer => true | _ => false

/-! ## Sample collaborators -/

/-- The big-endian number in the first four bytes. -/
def be32 : List Nat → Nat
  | b0 :: b1 :: b2 :: b3 :: _ => ((b0 * 256 + b1) * 256 + b2) * 256 + b3
  | _ => 0

/-- The loop of `sampleSplitNALUs`: cut `n` bytes off `rest`, then read the
next length; slicing past the end of `rest` panics. -/
def sampleSplitLoop : Nat → Nat → List Nat → List (List Nat) →
    Except Panic (List (List Nat) × List Nat)
  | 0, _, rest, acc => .ok (acc, rest)
  | fuel + 1, n, rest, acc =>
    if rest.length < n then .error (Panic.sliceBoundsOutOfRange n rest.length)
    else
      let acc1 := acc ++ [rest.take n]
      let rest1 := rest.drop n
      if rest1.length < 4 then .ok (acc1, rest1)
      else if (rest1.drop 4).length < be32 rest1 then .ok (acc1, rest1.drop 4)
      else sampleSplitLoop fuel (be32 rest1) (rest1.drop 4) acc1

/-- A sample splitter for the examples, standing for `h264.SplitNALUs`, whose
code is in another package: a payload of fewer than 4 bytes is one unit; a
payload whose first four bytes are a length not above the payload length is
cut into length-prefixed units, with a panic when the first length overruns
the bytes behind it; anything else is one unit. -/
def sampleSplitNALUs (b : List Nat) : Except Panic (List (List Nat)) :=
  if b.length < 4 then .ok [b]
  else if be32 b ≤ b.length then
    match sampleSplitLoop b.length (be32 b) (b.drop 4) [] with
    | .error e => .error e
    | .ok (nalus, rest) => if rest = [] then .ok nalus else .ok [b]
  else .ok [b]

/-- Collaborators that never fail: descriptions are `v=0`, the transformer
returns its input packet, the splitter is `sampleSplitNALUs`. -/
def quietEnv : Env :=
  { CreateOffer := fun _ => (⟨SDPType.Offer, "v=0"⟩, none)
    CreateAnswer := fun _ => (⟨SDPType.Answer, "v=0"⟩, none)
    SetLocalDescription := fun _ _ => none
    SetRemoteDescription := fun _ _ => none
    Dial := fun _ _ => none
    Streams := fun _ => ([CodecData.h264 ⟨[103, 66], [104, 206]⟩, CodecData.aac ⟨44100, 2, 1⟩], none)
    transformDo := fun _ p => ([p], none)
    WriteSample := fun _ _ _ => none
    SplitNALUs := sampleSplitNALUs }

/-- A streamer after `PullStreamStart` with the streams of `quietEnv`. -/
def startedStreamer : RtmpRtcStreamer :=
  { NewRtmpRtcStreamer "rtmp://host/live" with
    streams := [CodecData.h264 ⟨[103, 66], [104, 206]⟩, CodecData.aac ⟨44100, 2, 1⟩]
    videoCodec := ⟨[103, 66], [104, 206]⟩
    audioCodec := ⟨44100, 2, 1⟩
    conn := true }

/-- A video packet (stream 0) that is not a key frame. -/
def videoPacket (time : Int) (data : List Nat) : Packet :=
  { Idx := 0, Time := time, Data := data, IsKeyFrame := false }

/-- A video packet (stream 0) that is a key frame. -/
def keyPacket (time : Int) (data : List Nat) : Packet :=
  { Idx := 0, Time := time, Data := data, IsKeyFrame := true }

/-- An audio packet (stream 1). -/
def audioPacket (time : Int) (data : List Nat) : Packet :=
  { Idx := 1, Time := time, Data := data, IsKeyFrame := false }

/-- The collaborators of `quietEnv`, except that every `WriteSample` fails. -/
def failingWriteEnv : Env :=
  { quietEnv with WriteSample := fun _ _ _ => some "write failed" }

/-- A started streamer that has already forwarded a video and an audio packet
of time 5. -/
def tickedStreamer : RtmpRtcStreamer :=
  { startedStreamer with lastVideoTime := 5, lastAudioTime := 5 }

/-- Whether the packet's stream index resolves to a video stream. -/
def isVideoPacket (r : RtmpRtcStreamer) (p : Packet) : Bool :=
  match streamAt r p.Idx with
  | .ok s => s.Type_.IsVideo
  | .error _ => false

/-- The collaborators of `quietEnv`, except that `CreateAnswer` fails with an
empty description (no remote offer was set) and `SetLocalDescription` rejects
an empty description. -/
def answerFailsEnv : Env :=
  { quietEnv with
    CreateAnswer := fun _ => (⟨SDPType.unknown, ""⟩, some "no remote description")
    SetLocalDescription := fun _ sdp => if sdp.SDP = "" then some "empty description" else none }

/-- The `WriteSample` calls of a trace. -/
def writes (tr : List Event) : List Event :=
  tr.filter fun e => match e with | .writeSample _ _ _ _ _ => true | _ => false

/-- The time of the last packet of `outs`, or `old` when there is none. -/
def lastTime (old : Int) (outs : List Packet) : Int :=
  match outs.getLast? with
  | some o => o.Time
  | none => old

/-! ## Operations as atomic steps -/

/-- The operations on a streamer.  The goroutine `PullStream` is split into
its start and one step for each packet, so that a list of operations is an
interleaving of the read loop with the calls of the other methods. -/
inductive Op
  | GetLocalSDP (sdpType : SDPType)
  | SetRemoteSDP (sdpStr : String) (sdpType : SDPType)
  | onConnectionState (connected : Bool)
  | Close
  | PullStreamStart
  | PullStreamPacket (packet : Packet)

/-- The effect of one operation. -/
def step (env : Env) (r : RtmpRtcStreamer) : Op → Except Panic RtmpRtcStreamer
  | .GetLocalSDP k => .ok (GetLocalSDP env r k).1
  | .SetRemoteSDP s k => .ok (SetRemoteSDP env r s k).1
  | .onConnectionState c => .ok (onConnectionState r c)
  | .Close => Close r
  | .PullStreamStart => PullStreamStart env r
  | .PullStreamPacket p => PullStreamPacket env r p

/-- A sequence of operations, stopped by the first panic. -/
def run (env : Env) (r : RtmpRtcStreamer) : List Op → Except Panic RtmpRtcStreamer
  | [] => .ok r
  | op :: rest =>
    match step env r op with
    | .ok r1 => run env r1 rest
    | .error e => .error e

/-! ## Lemmas on the video branch -/

theorem written_append (t : Track) (a b : List Event) :
    written t (a ++ b) = written t a ++ written t b := by
  simp [written, List.filterMap_append]

theorem writes_append (a b : List Event) : writes (a ++ b) = writes a ++ writes b := by
  simp [writes]

theorem foldl_wrap (nalus : List (List Nat)) (b : List Nat) :
    nalus.foldl (fun acc nalu => (acc ++ naluHeader) ++ nalu) b
      = b ++ (nalus.map fun u => naluHeader ++ u).flatten := by
  induction nalus generalizing b with
  | nil => simp
  | cons u us ih =>
    rw [List.foldl_cons, ih]
    simp [List.append_assoc]

theorem hasNaluHeader_of_length (data : List Nat) (h : 4 ≤ data.length) :
    hasNaluHeader data = .ok (decide (data.take 4 = naluHeader)) := by
  match data, h with
  | a :: b :: c :: d :: rest, _ =>
    by_cases ha : a = 0 <;> by_cases hb : b = 0 <;> by_cases hc : c = 0 <;>
      simp [hasNaluHeader, byteAt, naluHeader, ha, hb, hc, bind, Except.bind, pure, Except.pure]

/-- The start code test panics on the four proper prefixes of the start code
and returns on every other payload. -/
theorem hasNaluHeader_cases (data : List Nat) :
    ((data = [] ∨ data = [0] ∨ data = [0, 0] ∨ data = [0, 0, 0]) ∧
      hasNaluHeader data = .error (Panic.indexOutOfRange data.length data.length)) ∨
    (¬ (data = [] ∨ data = [0] ∨ data = [0, 0] ∨ data = [0, 0, 0]) ∧
      hasNaluHeader data = .ok (decide (data.take 4 = naluHeader))) := by
  match data with
  | [] => simp [hasNaluHeader, byteAt, bind, Except.bind]
  | [a] =>
    by_cases ha : a = 0 <;>
      simp [hasNaluHeader, byteAt, naluHeader, ha, bind, Except.bind, pure, Except.pure]
  | [a, b] =>
    by_cases ha : a = 0 <;> by_cases hb : b = 0 <;>
      simp [hasNaluHeader, byteAt, naluHeader, ha, hb, bind, Except.bind, pure, Except.pure]
  | [a, b, c] =>
    by_cases ha : a = 0 <;> by_cases hb : b = 0 <;> by_cases hc : c = 0 <;>
      simp [hasNaluHeader, byteAt, naluHeader, ha, hb, hc, bind, Except.bind, pure, Except.pure]
  | a :: b :: c :: d :: rest =>
    have h := hasNaluHeader_of_length (a :: b :: c :: d :: rest) (by simp)
    exact Or.inr ⟨by simp, h⟩

/-- The state the video branch ends in when it writes the buffer `b` after
the events `pre`. -/
theorem videoPath_eq (env : Env) (r : RtmpRtcStreamer) (packet : Packet) :
    videoPath env r packet =
      match hasNaluHeader packet.Data with
      | .error e => .error e
      | .ok true =>
        .ok { r with
          lastVideoTime := packet.Time
          trace := (r.trace ++ [Event.printPrefix]) ++
            [Event.writeSample Track.video
              ⟨parameterSets r packet ++ packet.Data, videoSamples r.lastVideoTime packet.Time⟩
              (env.WriteSample (r.trace ++ [Event.printPrefix]) Track.video
                ⟨parameterSets r packet ++ packet.Data,
                  videoSamples r.lastVideoTime packet.Time⟩)
              r.lastVideoTime r.lastAudioTime] }
      | .ok false =>
        match env.SplitNALUs packet.Data with
        | .error e => .error e
        | .ok nalus =>
          .ok { r with
            lastVideoTime := packet.Time
            trace := r.trace ++
              [Event.writeSample Track.video
                ⟨parameterSets r packet ++ (nalus.map fun u => naluHeader ++ u).flatten,
                  videoSamples r.lastVideoTime packet.Time⟩
                (env.WriteSample r.trace Track.video
                  ⟨parameterSets r packet ++ (nalus.map fun u => naluHeader ++ u).flatten,
                    videoSamples r.lastVideoTime packet.Time⟩)
                r.lastVideoTime r.lastAudioTime] } := by
  unfold videoPath
  cases hn : hasNaluHeader packet.Data with
  | error e => simp [bind, Except.bind]
  | ok b =>
    cases b with
    | true => simp [bind, Except.bind, pure, Except.pure, TrackWriteSample]
    | false =>
      cases hsp : env.SplitNALUs packet.Data with
      | error e => simp [bind, Except.bind]
      | ok nalus =>
        have hf := foldl_wrap nalus (parameterSets r packet)
        simp only [List.append_assoc] at hf
        simp [bind, Except.bind, pure, Except.pure, TrackWriteSample, hf]

/-- Every completed run of the video branch: one `WriteSample` on the video
track, issued while the time fields hold their old values, then the store of
`lastVideoTime`. -/
theorem videoPath_result (env : Env) (r r1 : RtmpRtcStreamer) (packet : Packet)
    (h : videoPath env r packet = .ok r1) :
    ∃ pre smp, (pre = [] ∨ pre = [Event.printPrefix]) ∧
      ((packet.Data.take 4 = naluHeader ∧ smp.Data = parameterSets r packet ++ packet.Data) ∨
        (packet.Data.take 4 ≠ naluHeader ∧ ∃ us, env.SplitNALUs packet.Data = .ok us ∧
          smp.Data = parameterSets r packet ++ (us.map fun u => naluHeader ++ u).flatten)) ∧
      smp.Samples = videoSamples r.lastVideoTime packet.Time ∧
      r1 = { r with
        lastVideoTime := packet.Time
        trace := (r.trace ++ pre) ++
          [Event.writeSample Track.video smp (env.WriteSample (r.trace ++ pre) Track.video smp)
            r.lastVideoTime r.lastAudioTime] } := by
  rw [videoPath_eq] at h
  rcases hasNaluHeader_cases packet.Data with ⟨-, hn⟩ | ⟨-, hn⟩
  · simp [hn] at h
  · by_cases hp : packet.Data.take 4 = naluHeader
    · simp only [hn, hp, decide_True, Except.ok.injEq] at h
      exact ⟨[Event.printPrefix],
        ⟨parameterSets r packet ++ packet.Data, videoSamples r.lastVideoTime packet.Time⟩,
        Or.inr rfl, Or.inl ⟨hp, rfl⟩, rfl, h.symm⟩
    · simp only [hn, hp, decide_False] at h
      cases hsp : env.SplitNALUs packet.Data with
      | error e => simp [hsp] at h
      | ok nalus =>
        simp only [hsp, Except.ok.injEq] at h
        refine ⟨[],
          ⟨parameterSets r packet ++ (nalus.map fun u => naluHeader ++ u).flatten,
            videoSamples r.lastVideoTime packet.Time⟩,
          Or.inl rfl, Or.inr ⟨hp, nalus, rfl, rfl⟩, rfl, ?_⟩
        rw [← h]
        simp

/-- The video branch completes when the start code test returns and, on a
payload without start code, `SplitNALUs` returns. -/
theorem videoPath_completes (env : Env) (r : RtmpRtcStreamer) (packet : Packet)
    (us : List (List Nat))
    (hshort : ¬ (packet.Data = [] ∨ packet.Data = [0] ∨ packet.Data = [0, 0] ∨
      packet.Data = [0, 0, 0]))
    (hsplit : packet.Data.take 4 = naluHeader ∨ env.SplitNALUs packet.Data = .ok us) :
    ∃ r1, videoPath env r packet = .ok r1 := by
  rw [videoPath_eq]
  rcases hasNaluHeader_cases packet.Data with ⟨hs, -⟩ | ⟨-, hn⟩
  · exact absurd hs hshort
  · by_cases hp : packet.Data.take 4 = naluHeader
    · simp [hn, hp]
    · rcases hsplit with h | h
      · exact absurd h hp
      · simp [hn, hp, h]

theorem PullStreamPacket_video (env : Env) (r : RtmpRtcStreamer) (packet : Packet)
    (stream : CodecData) (hs : streamAt r packet.Idx = .ok stream)
    (hv : stream.Type_.IsVideo = true) :
    PullStreamPacket env r packet = videoPath env r packet := by
  simp [PullStreamPacket, hs, hv, bind, Except.bind]

theorem written_printPrefix (t : Track) (pre : List Event)
    (h : pre = [] ∨ pre = [Event.printPrefix]) : written t pre = [] := by
  rcases h with h | h <;> simp [h, written]

theorem writes_printPrefix (pre : List Event)
    (h : pre = [] ∨ pre = [Event.printPrefix]) : writes pre = [] := by
  rcases h with h | h <;> simp [h, writes]

theorem not_short_of_length (data : List Nat) (h4 : 4 ≤ data.length) :
    ¬ (data = [] ∨ data = [0] ∨ data = [0, 0] ∨ data = [0, 0, 0]) := by
  rintro (h | h | h | h) <;> simp [h] at h4

/-! ## The video buffer -/

/-- The buffer of a video packet of at least 4 bytes, as the two statements
on the buffer need it. -/
theorem video_buffer_layout_aux (env : Env) (r : RtmpRtcStreamer) (packet : Packet)
    (stream : CodecData) (us : List (List Nat)) (hs : streamAt r packet.Idx = .ok stream)
    (hv : stream.Type_.IsVideo = true) (h4 : 4 ≤ packet.Data.length)
    (hsplit : packet.Data.take 4 = [0, 0, 0, 1] ∨ env.SplitNALUs packet.Data = .ok us) :
    ∃ r1 smp, PullStreamPacket env r packet = .ok r1 ∧
      written Track.video r1.trace = written Track.video r.trace ++ [smp] ∧
      smp.Data =
        (if packet.IsKeyFrame then
          [0, 0, 0, 1] ++ r.videoCodec.SPS ++ [0, 0, 0, 1] ++ r.videoCodec.PPS
         else []) ++
        (if packet.Data.take 4 = [0, 0, 0, 1] then packet.Data
         else (us.map fun u => [0, 0, 0, 1] ++ u).flatten) := by
  obtain ⟨r1, hr1⟩ := videoPath_completes env r packet us
    (not_short_of_length _ h4) hsplit
  obtain ⟨pre, smp, hpre, hdata, -, hst⟩ := videoPath_result env r r1 packet hr1
  rw [← PullStreamPacket_video env r packet stream hs hv] at hr1
  refine ⟨r1, smp, hr1, ?_, ?_⟩
  · rw [hst]
    simp only [written_append, written_printPrefix _ pre hpre, List.append_nil]
    simp [written]
  · have hps : parameterSets r packet =
        (if packet.IsKeyFrame then
          [0, 0, 0, 1] ++ r.videoCodec.SPS ++ [0, 0, 0, 1] ++ r.videoCodec.PPS
         else []) := by
      cases hk : packet.IsKeyFrame <;> simp [parameterSets, naluHeader, hk]
    rcases hdata with ⟨hp, hd⟩ | ⟨hp, us1, hus1, hd⟩
    · have hp1 : packet.Data.take 4 = [0, 0, 0, 1] := hp
      rw [hd, hps, if_pos hp1]
    · have hp1 : ¬ packet.Data.take 4 = [0, 0, 0, 1] := hp
      rcases hsplit with h | h
      · exact absurd h hp1
      · rw [h] at hus1
        injection hus1 with hus1
        rw [hd, hps, if_neg hp1, ← hus1]
        rfl

/-- C2: a video packet with a payload of at least 4 bytes (that begins with
the start code, or for which `SplitNALUs` returns the units `us`) is written
to the video track as one sample whose buffer is, for a key frame,
`00 00 00 01 ‖ SPS ‖ 00 00 00 01 ‖ PPS ‖ reframed payload` and otherwise the
reframed payload alone; the reframed payload is the payload itself when it
begins with `00 00 00 01` and otherwise the units of `SplitNALUs`, each
behind a start code. -/
theorem video_buffer_layout (env : Env) (r : RtmpRtcStreamer) (packet : Packet)
    (stream : CodecData) (us : List (List Nat)) (hs : streamAt r packet.Idx = .ok stream)
    (hv : stream.Type_.IsVideo = true) (h4 : 4 ≤ packet.Data.length)
    (hsplit : packet.Data.take 4 = [0, 0, 0, 1] ∨ env.SplitNALUs packet.Data = .ok us) :
    ∃ r1 smp, PullStreamPacket env r packet = .ok r1 ∧
      written Track.video r1.trace = written Track.video r.trace ++ [smp] ∧
      smp.Data =
        (if packet.IsKeyFrame then
          [0, 0, 0, 1] ++ r.videoCodec.SPS ++ [0, 0, 0, 1] ++ r.videoCodec.PPS
         else []) ++
        (if packet.Data.take 4 = [0, 0, 0, 1] then packet.Data
         else (us.map fun u => [0, 0, 0, 1] ++ u).flatten) :=
  video_buffer_layout_aux env r packet stream us hs hv h4 hsplit

theorem video_buffer_layout_witness :
    (streamAt startedStreamer (keyPacket 40 [0, 0, 0, 2, 101, 136]).Idx
        = .ok (CodecData.h264 ⟨[103, 66], [104, 206]⟩) ∧
      4 ≤ (keyPacket 40 [0, 0, 0, 2, 101, 136]).Data.length ∧
      quietEnv.SplitNALUs (keyPacket 40 [0, 0, 0, 2, 101, 136]).Data = .ok [[101, 136]]) ∧
    ∃ r1 smp, PullStreamPacket quietEnv startedStreamer (keyPacket 40 [0, 0, 0, 2, 101, 136])
        = .ok r1 ∧
      written Track.video r1.trace = written Track.video startedStreamer.trace ++ [smp] ∧
      smp.Data = [0, 0, 0, 1, 103, 66, 0, 0, 0, 1, 104, 206, 0, 0, 0, 1, 101, 136] :=
  ⟨⟨rfl, by decide, rfl⟩,
    video_buffer_layout quietEnv startedStreamer (keyPacket 40 [0, 0, 0, 2, 101, 136])
      (CodecData.h264 ⟨[103, 66], [104, 206]⟩) [[101, 136]] rfl rfl (by decide)
      (Or.inr rfl)⟩

/-- C3: a video packet whose payload begins with `00 00 00 01` is written as
one sample; when it is not a key frame the buffer is the payload, byte for
byte, and when it is a key frame the buffer is the wrapped SPS and PPS
followed by the payload, byte for byte. -/
theorem prefixed_payload_unmodified (env : Env) (r : RtmpRtcStreamer) (packet : Packet)
    (stream : CodecData) (rest : List Nat) (hs : streamAt r packet.Idx = .ok stream)
    (hv : stream.Type_.IsVideo = true) (hp : packet.Data = [0, 0, 0, 1] ++ rest) :
    ∃ r1 smp, PullStreamPacket env r packet = .ok r1 ∧
      written Track.video r1.trace = written Track.video r.trace ++ [smp] ∧
      (packet.IsKeyFrame = false → smp.Data = packet.Data) ∧
      (packet.IsKeyFrame = true →
        smp.Data =
          [0, 0, 0, 1] ++ r.videoCodec.SPS ++ [0, 0, 0, 1] ++ r.videoCodec.PPS ++ packet.Data ∧
        smp.Data.drop (8 + r.videoCodec.SPS.length + r.videoCodec.PPS.length) = packet.Data) := by
  have h4 : 4 ≤ packet.Data.length := by simp [hp]
  have ht : packet.Data.take 4 = naluHeader := by simp [hp, naluHeader]
  obtain ⟨r1, hr1⟩ := videoPath_completes env r packet []
    (not_short_of_length _ h4) (Or.inl ht)
  obtain ⟨pre, smp, hpre, hdata, -, hst⟩ := videoPath_result env r r1 packet hr1
  rw [← PullStreamPacket_video env r packet stream hs hv] at hr1
  have hsmp : smp.Data = parameterSets r packet ++ packet.Data := by
    rcases hdata with ⟨-, hd⟩ | ⟨hne, -⟩
    · exact hd
    · exact absurd ht hne
  refine ⟨r1, smp, hr1, ?_, ?_, ?_⟩
  · rw [hst]
    simp only [written_append, written_printPrefix _ pre hpre, List.append_nil]
    simp [written]
  · intro hk
    simp [hsmp, parameterSets, hk]
  · intro hk
    rw [hsmp]
    have hd : ∀ (a b c : List Nat),
        List.drop (8 + a.length + b.length) (0 :: 0 :: 0 :: 1 :: (a ++ 0 :: 0 :: 0 :: 1 :: (b ++ c)))
          = c := by
      intro a b c
      have e : 0 :: 0 :: 0 :: 1 :: (a ++ 0 :: 0 :: 0 :: 1 :: (b ++ c))
          = ([0, 0, 0, 1] ++ a ++ [0, 0, 0, 1] ++ b) ++ c := by simp
      rw [e]
      exact List.drop_left' (by simp; omega)
    simp [parameterSets, hk, naluHeader, hd]

theorem prefixed_payload_unmodified_witness :
    (streamAt startedStreamer (videoPacket 40 [0, 0, 0, 1, 65, 154]).Idx
        = .ok (CodecData.h264 ⟨[103, 66], [104, 206]⟩) ∧
      (videoPacket 40 [0, 0, 0, 1, 65, 154]).Data = [0, 0, 0, 1] ++ [65, 154]) ∧
    ∃ r1 smp, PullStreamPacket quietEnv startedStreamer (videoPacket 40 [0, 0, 0, 1, 65, 154])
        = .ok r1 ∧
      written Track.video r1.trace = written Track.video startedStreamer.trace ++ [smp] ∧
      ((videoPacket 40 [0, 0, 0, 1, 65, 154]).IsKeyFrame = false →
        smp.Data = [0, 0, 0, 1, 65, 154]) ∧
      ((videoPacket 40 [0, 0, 0, 1, 65, 154]).IsKeyFrame = true →
        smp.Data =
          [0, 0, 0, 1] ++ startedStreamer.videoCodec.SPS ++ [0, 0, 0, 1] ++
            startedStreamer.videoCodec.PPS ++ [0, 0, 0, 1, 65, 154] ∧
        smp.Data.drop (8 + startedStreamer.videoCodec.SPS.length +
          startedStreamer.videoCodec.PPS.length) = [0, 0, 0, 1, 65, 154]) :=
  ⟨⟨rfl, rfl⟩,
    prefixed_payload_unmodified quietEnv startedStreamer (videoPacket 40 [0, 0, 0, 1, 65, 154])
      (CodecData.h264 ⟨[103, 66], [104, 206]⟩) [65, 154] rfl rfl rfl⟩

/-- C4: a video packet that is not a key frame and whose payload (of at least
4 bytes, as every length-prefixed payload with a unit is) does not begin with
`00 00 00 01` and is split by `SplitNALUs` into the units `us` is written as
one sample whose buffer is the concatenation of `00 00 00 01 ‖ u` over the
units `u` of `us`, in their order; for the units `[A, B]` it is
`00 00 00 01 ‖ A ‖ 00 00 00 01 ‖ B`. -/
theorem length_prefixed_rewrapped (env : Env) (r : RtmpRtcStreamer) (packet : Packet)
    (stream : CodecData) (us : List (List Nat)) (hs : streamAt r packet.Idx = .ok stream)
    (hv : stream.Type_.IsVideo = true) (hk : packet.IsKeyFrame = false)
    (h4 : 4 ≤ packet.Data.length) (hp : packet.Data.take 4 ≠ [0, 0, 0, 1])
    (hsplit : env.SplitNALUs packet.Data = .ok us) :
    ∃ r1 smp, PullStreamPacket env r packet = .ok r1 ∧
      written Track.video r1.trace = written Track.video r.trace ++ [smp] ∧
      smp.Data = (us.map fun u => [0, 0, 0, 1] ++ u).flatten ∧
      (∀ A B, us = [A, B] → smp.Data = [0, 0, 0, 1] ++ A ++ [0, 0, 0, 1] ++ B) := by
  obtain ⟨r1, smp, h1, h2, h3⟩ :=
    video_buffer_layout_aux env r packet stream us hs hv h4 (Or.inr hsplit)
  have hd : smp.Data = (us.map fun u => [0, 0, 0, 1] ++ u).flatten := by
    rw [h3]
    simp [hk, hp]
  refine ⟨r1, smp, h1, h2, hd, ?_⟩
  intro A B hAB
  rw [hd, hAB]
  simp

theorem length_prefixed_rewrapped_witness :
    (streamAt startedStreamer (videoPacket 40 [0, 0, 0, 2, 65, 154, 0, 0, 0, 1, 6]).Idx
        = .ok (CodecData.h264 ⟨[103, 66], [104, 206]⟩) ∧
      4 ≤ (videoPacket 40 [0, 0, 0, 2, 65, 154, 0, 0, 0, 1, 6]).Data.length ∧
      (videoPacket 40 [0, 0, 0, 2, 65, 154, 0, 0, 0, 1, 6]).Data.take 4 ≠ [0, 0, 0, 1] ∧
      quietEnv.SplitNALUs [0, 0, 0, 2, 65, 154, 0, 0, 0, 1, 6] = .ok [[65, 154], [6]]) ∧
    ∃ r1 smp,
      PullStreamPacket quietEnv startedStreamer
        (videoPacket 40 [0, 0, 0, 2, 65, 154, 0, 0, 0, 1, 6]) = .ok r1 ∧
      written Track.video r1.trace = written Track.video startedStreamer.trace ++ [smp] ∧
      smp.Data = [0, 0, 0, 1, 65, 154, 0, 0, 0, 1, 6] ∧
      (∀ A B, [[65, 154], [6]] = [A, B] →
        smp.Data = [0, 0, 0, 1] ++ A ++ [0, 0, 0, 1] ++ B) :=
  ⟨⟨rfl, by decide, by decide, rfl⟩,
    length_prefixed_rewrapped quietEnv startedStreamer
      (videoPacket 40 [0, 0, 0, 2, 65, 154, 0, 0, 0, 1, 6])
      (CodecData.h264 ⟨[103, 66], [104, 206]⟩) [[65, 154], [6]] rfl rfl rfl (by decide)
      (by decide) rfl⟩

/-! ## Short video payloads -/

/-- C10 (amended): for a packet of a video stream the start code test reads
the payload bytes from left to right without a length check, a byte only
when the bytes before it matched.  On the payloads `[]`, `00`, `00 00` and
`00 00 00` it panics with an index out of range (the index is the payload
length).  On every other payload the test returns: a payload that begins
with `00 00 00 01` is then processed to the end, and any other payload, a
1-3 byte payload among them, is handed to `SplitNALUs` and is processed to
the end exactly when `SplitNALUs` returns, a panic of `SplitNALUs` being the
panic of the packet. -/
theorem short_payload_panic (env : Env) (r : RtmpRtcStreamer) (packet : Packet)
    (stream : CodecData) (hs : streamAt r packet.Idx = .ok stream)
    (hv : stream.Type_.IsVideo = true) :
    ((packet.Data = [] ∨ packet.Data = [0] ∨ packet.Data = [0, 0] ∨ packet.Data = [0, 0, 0]) →
      PullStreamPacket env r packet =
        .error (Panic.indexOutOfRange packet.Data.length packet.Data.length)) ∧
    (¬ (packet.Data = [] ∨ packet.Data = [0] ∨ packet.Data = [0, 0] ∨
          packet.Data = [0, 0, 0]) →
      (packet.Data.take 4 = [0, 0, 0, 1] → ∃ r1, PullStreamPacket env r packet = .ok r1) ∧
      (packet.Data.take 4 ≠ [0, 0, 0, 1] →
        (∀ us, env.SplitNALUs packet.Data = .ok us →
          ∃ r1, PullStreamPacket env r packet = .ok r1) ∧
        (∀ e, env.SplitNALUs packet.Data = .error e →
          PullStreamPacket env r packet = .error e))) ∧
    ((∃ r1, PullStreamPacket env r packet = .ok r1) ↔
      ¬ (packet.Data = [] ∨ packet.Data = [0] ∨ packet.Data = [0, 0] ∨
          packet.Data = [0, 0, 0]) ∧
      (packet.Data.take 4 = [0, 0, 0, 1] ∨ ∃ us, env.SplitNALUs packet.Data = .ok us)) := by
  rw [PullStreamPacket_video env r packet stream hs hv]
  refine ⟨?_, ?_, ?_⟩
  · intro hshort
    rcases hasNaluHeader_cases packet.Data with ⟨-, hn⟩ | ⟨hns, -⟩
    · rw [videoPath_eq, hn]
    · exact absurd hshort hns
  · intro hns
    refine ⟨fun hp => videoPath_completes env r packet [] hns (Or.inl hp), fun hp => ⟨?_, ?_⟩⟩
    · intro us hus
      exact videoPath_completes env r packet us hns (Or.inr hus)
    · intro e he
      rcases hasNaluHeader_cases packet.Data with ⟨hshort, -⟩ | ⟨-, hn⟩
      · exact absurd hshort hns
      · have hp1 : ¬ packet.Data.take 4 = naluHeader := hp
        rw [videoPath_eq, hn]
        simp [hp1, he]
  · constructor
    · rintro ⟨r1, hr1⟩
      obtain ⟨pre, smp, -, hdata, -, -⟩ := videoPath_result env r r1 packet hr1
      constructor
      · intro hshort
        rcases hasNaluHeader_cases packet.Data with ⟨-, hn⟩ | ⟨hns, -⟩
        · rw [videoPath_eq, hn] at hr1
          simp at hr1
        · exact hns hshort
      · rcases hdata with ⟨hp, -⟩ | ⟨-, us, hus, -⟩
        · exact Or.inl hp
        · exact Or.inr ⟨us, hus⟩
    · rintro ⟨hns, hp | ⟨us, hus⟩⟩
      · exact videoPath_completes env r packet [] hns (Or.inl hp)
      · exact videoPath_completes env r packet us hns (Or.inr hus)

theorem short_payload_panic_witness :
    (streamAt startedStreamer (videoPacket 40 [0, 0, 0, 5, 1, 2]).Idx
        = .ok (CodecData.h264 ⟨[103, 66], [104, 206]⟩) ∧
      quietEnv.SplitNALUs (videoPacket 40 [0, 0, 0, 5, 1, 2]).Data
        = .error (Panic.sliceBoundsOutOfRange 5 2)) ∧
    PullStreamPacket quietEnv startedStreamer (videoPacket 40 [0, 0, 0, 5, 1, 2])
      = .error (Panic.sliceBoundsOutOfRange 5 2) :=
  ⟨⟨rfl, rfl⟩,
    (((short_payload_panic quietEnv startedStreamer (videoPacket 40 [0, 0, 0, 5, 1, 2])
      (CodecData.h264 ⟨[103, 66], [104, 206]⟩) rfl rfl).2.1 (by decide)).2 (by decide)).2
      _ rfl⟩

/-- C10 as stated fails: the one byte payload `05` of a video packet is
processed without a panic (the first comparison already fails, no further
byte is read) and is written to the video track behind a start code. -/
theorem short_payload_counterexample :
    ¬ ((∃ r1, PullStreamPacket quietEnv startedStreamer (videoPacket 40 [5]) = .ok r1) ↔
        4 ≤ (videoPacket 40 [5]).Data.length) ∧
    (PullStreamPacket quietEnv startedStreamer (videoPacket 40 [5])).toOption.map
        (fun r1 => written Track.video r1.trace) = some [⟨[0, 0, 0, 1, 5], 0⟩] := by
  refine ⟨?_, by decide⟩
  intro h
  have h1 : ∃ r1, PullStreamPacket quietEnv startedStreamer (videoPacket 40 [5]) = .ok r1 :=
    ⟨_, rfl⟩
  exact absurd (h.mp h1) (by decide)

/-! ## Lemmas on the audio branch -/

theorem lastTime_cons (old : Int) (o : Packet) (outs : List Packet) :
    lastTime old (o :: outs) = lastTime o.Time outs := by
  cases outs with
  | nil => simp [lastTime]
  | cons a l =>
    have h : (a :: l).getLast? = some ((a :: l).getLast (by simp)) :=
      List.getLast?_eq_getLast _ _
    simp [lastTime, List.getLast?_cons_cons, h]

/-- What the loop over the transformed packets leaves unchanged, what it
writes, and where `lastAudioTime` ends. -/
theorem audioFold (env : Env) (packet : Packet) (outs : List Packet) (r : RtmpRtcStreamer) :
    ∃ evs, outs.foldl (audioOutput env packet) r =
        { r with lastAudioTime := lastTime r.lastAudioTime outs, trace := r.trace ++ evs } ∧
      written Track.video evs = [] ∧
      written Track.audio evs = outs.map (fun o => (⟨o.Data, 960⟩ : Sample)) ∧
      pcReleases evs = 0 ∧ connReleases evs = 0 ∧
      List.Forall₂
        (fun o e => ∃ err, e = Event.writeSample Track.audio ⟨o.Data, 960⟩ err
          r.lastVideoTime o.Time)
        outs (writes evs) := by
  induction outs generalizing r with
  | nil => exact ⟨[], by simp [lastTime], by simp [written], by simp [written],
      by simp [pcReleases], by simp [connReleases], by simp [writes]⟩
  | cons o outs ih =>
    obtain ⟨evs, h1, h2, h3, h4, h5, h6⟩ := ih (audioOutput env packet r o)
    refine ⟨[Event.printSamples (audioSamples r.lastAudioTime o.Time) packet.Time o.Time,
        Event.writeSample Track.audio ⟨o.Data, 960⟩
          (env.WriteSample (r.trace ++
            [Event.printSamples (audioSamples r.lastAudioTime o.Time) packet.Time o.Time])
            Track.audio ⟨o.Data, 960⟩) r.lastVideoTime o.Time] ++ evs, ?_, ?_, ?_, ?_, ?_, ?_⟩
    · rw [List.foldl_cons, h1, lastTime_cons]
      simp [audioOutput, TrackWriteSample, List.append_assoc]
    · rw [written_append, h2]; simp [written]
    · rw [written_append, h3]; simp [written]
    · simp [pcReleases, List.countP_append] at h4 ⊢
      exact h4
    · simp [connReleases, List.countP_append] at h5 ⊢
      exact h5
    · rw [writes_append]
      simp only [writes, List.filter, List.cons_append, List.nil_append]
      refine List.Forall₂.cons ⟨_, rfl⟩ ?_
      simpa [audioOutput, TrackWriteSample, writes] using h6

/-! ## The audio branch and the time fields -/

theorem PullStreamPacket_audio (env : Env) (r : RtmpRtcStreamer) (packet : Packet)
    (stream : CodecData) (hs : streamAt r packet.Idx = .ok stream)
    (ha : stream.Type_ = CodecType.AAC) :
    PullStreamPacket env r packet = .ok (audioPath env r packet) := by
  simp [PullStreamPacket, hs, ha, CodecType.IsVideo, bind, Except.bind, pure, Except.pure]

theorem audioPath_ok (env : Env) (r : RtmpRtcStreamer) (packet : Packet) (outs : List Packet)
    (ht : env.transformDo r.trace packet = (outs, none)) :
    audioPath env r packet =
      outs.foldl (audioOutput env packet)
        { r with trace := r.trace ++ [Event.transformDo packet] } := by
  simp [audioPath, ht]

/-- C9: an audio (AAC) packet on which the transform succeeds with the
outputs `outs` writes, in order, one sample `(o.Data, 960)` for each output
`o` to the audio track and nothing to the video track; afterwards
`lastAudioTime` is the time of the last output, or unchanged when there was
no output, and `lastVideoTime` is unchanged. -/
theorem audio_forwarding (env : Env) (r : RtmpRtcStreamer) (packet : Packet)
    (stream : CodecData) (outs : List Packet) (hs : streamAt r packet.Idx = .ok stream)
    (ha : stream.Type_ = CodecType.AAC)
    (ht : env.transformDo r.trace packet = (outs, none)) :
    ∃ r1, PullStreamPacket env r packet = .ok r1 ∧
      written Track.audio r1.trace
        = written Track.audio r.trace ++ outs.map (fun o => (⟨o.Data, 960⟩ : Sample)) ∧
      written Track.video r1.trace = written Track.video r.trace ∧
      r1.lastAudioTime = (match outs.getLast? with
        | some o => o.Time
        | none => r.lastAudioTime) ∧
      r1.lastVideoTime = r.lastVideoTime := by
  obtain ⟨evs, h1, h2, h3, -, -, -⟩ :=
    audioFold env packet outs { r with trace := r.trace ++ [Event.transformDo packet] }
  refine ⟨_, PullStreamPacket_audio env r packet stream hs ha, ?_, ?_, ?_, ?_⟩
  · rw [audioPath_ok env r packet outs ht, h1]
    simp only [written_append, h3]
    simp [written]
  · rw [audioPath_ok env r packet outs ht, h1]
    simp only [written_append, h2]
    simp [written]
  · rw [audioPath_ok env r packet outs ht, h1]
    rfl
  · rw [audioPath_ok env r packet outs ht, h1]

theorem audio_forwarding_witness :
    (streamAt tickedStreamer (audioPacket 7 [1, 2]).Idx = .ok (CodecData.aac ⟨44100, 2, 1⟩) ∧
      quietEnv.transformDo tickedStreamer.trace (audioPacket 7 [1, 2])
        = ([audioPacket 7 [1, 2]], none)) ∧
    ∃ r1, PullStreamPacket quietEnv tickedStreamer (audioPacket 7 [1, 2]) = .ok r1 ∧
      written Track.audio r1.trace = written Track.audio tickedStreamer.trace ++ [⟨[1, 2], 960⟩] ∧
      written Track.video r1.trace = written Track.video tickedStreamer.trace ∧
      r1.lastAudioTime = 7 ∧
      r1.lastVideoTime = 5 :=
  ⟨⟨rfl, rfl⟩,
    audio_forwarding quietEnv tickedStreamer (audioPacket 7 [1, 2])
      (CodecData.aac ⟨44100, 2, 1⟩) [audioPacket 7 [1, 2]] rfl rfl rfl⟩

/-- C8 (amended): for every video packet the read loop processes, the video
track is written while `lastVideoTime` still holds its previous value, and
the field is the packet time afterwards, whatever error the write returned;
for every audio packet on which the transform succeeds, each output is
written to the audio track, `lastAudioTime` is an output's time after the
turn of the loop for that output and ends as the time of the last output,
whatever error the writes returned. -/
theorem time_fields_at_write (env : Env) (r r1 : RtmpRtcStreamer) (packet : Packet)
    (stream : CodecData) (hs : streamAt r packet.Idx = .ok stream)
    (hrun : PullStreamPacket env r packet = .ok r1) :
    (stream.Type_.IsVideo = true →
      ∃ smp pre, writes pre = [] ∧
        writes r1.trace = writes r.trace ++
          [Event.writeSample Track.video smp (env.WriteSample (r.trace ++ pre) Track.video smp)
            r.lastVideoTime r.lastAudioTime] ∧
        r1.lastVideoTime = packet.Time) ∧
    (stream.Type_ = CodecType.AAC → ∀ outs, env.transformDo r.trace packet = (outs, none) →
      written Track.audio r1.trace
        = written Track.audio r.trace ++ outs.map (fun o => (⟨o.Data, 960⟩ : Sample)) ∧
      r1.lastAudioTime = (match outs.getLast? with
        | some o => o.Time
        | none => r.lastAudioTime)) ∧
    (∀ (r0 : RtmpRtcStreamer) (pkt : Packet),
      written Track.audio (audioOutput env packet r0 pkt).trace
        = written Track.audio r0.trace ++ [⟨pkt.Data, 960⟩] ∧
      (audioOutput env packet r0 pkt).lastAudioTime = pkt.Time) := by
  refine ⟨?_, ?_, ?_⟩
  · intro hv
    rw [PullStreamPacket_video env r packet stream hs hv] at hrun
    obtain ⟨pre, smp, hpre, -, -, hst⟩ := videoPath_result env r r1 packet hrun
    refine ⟨smp, pre, writes_printPrefix pre hpre, ?_, ?_⟩
    · rw [hst]
      simp only [writes_append, writes_printPrefix pre hpre, List.append_nil]
      simp [writes]
    · rw [hst]
  · intro ha outs ht
    rw [PullStreamPacket_audio env r packet stream hs ha] at hrun
    injection hrun with hrun
    obtain ⟨evs, h1, -, h3, -, -, -⟩ :=
      audioFold env packet outs { r with trace := r.trace ++ [Event.transformDo packet] }
    rw [← hrun, audioPath_ok env r packet outs ht, h1]
    constructor
    · simp only [written_append, h3]
      simp [written]
    · rfl
  · intro r0 pkt
    constructor
    · simp only [audioOutput, TrackWriteSample, written_append]
      simp [written]
    · rfl

theorem time_fields_at_write_witness :
    streamAt tickedStreamer (videoPacket 7 [5]).Idx
        = .ok (CodecData.h264 ⟨[103, 66], [104, 206]⟩) ∧
    ∃ r1, PullStreamPacket failingWriteEnv tickedStreamer (videoPacket 7 [5]) = .ok r1 ∧
      ∃ smp pre, writes pre = [] ∧
        writes r1.trace = writes tickedStreamer.trace ++
          [Event.writeSample Track.video smp
            (failingWriteEnv.WriteSample (tickedStreamer.trace ++ pre) Track.video smp) 5 5] ∧
        r1.lastVideoTime = 7 :=
  ⟨rfl, _, rfl,
    (time_fields_at_write failingWriteEnv tickedStreamer _ (videoPacket 7 [5])
      (CodecData.h264 ⟨[103, 66], [104, 206]⟩) rfl rfl).1 rfl⟩

/-- C8 as stated fails.  With a track whose `WriteSample` fails and both time
fields at 5: an audio packet whose output has time 7 is written when
`lastAudioTime` is already 7, and the field stays 7 after the failed call; a
video packet of time 7 is written while `lastVideoTime` is 5, and the field
is 7 after the failed call. -/
theorem time_fields_counterexample :
    tickedStreamer.lastAudioTime = 5 ∧ tickedStreamer.lastVideoTime = 5 ∧
    (PullStreamPacket failingWriteEnv tickedStreamer (audioPacket 7 [1, 2])).toOption.map
        (fun r1 => (writes r1.trace, r1.lastAudioTime))
      = some ([Event.writeSample Track.audio ⟨[1, 2], 960⟩ (some "write failed") 5 7], 7) ∧
    (PullStreamPacket failingWriteEnv tickedStreamer (videoPacket 7 [0, 0, 0, 1, 9])).toOption.map
        (fun r1 => (writes r1.trace, r1.lastVideoTime))
      = some ([Event.writeSample Track.video ⟨[0, 0, 0, 1, 9], 0⟩ (some "write failed") 5 5], 7) := by
  decide

/-! ## The video sample counts -/

theorem audioPath_frame (env : Env) (r : RtmpRtcStreamer) (packet : Packet) :
    ∃ la evs, audioPath env r packet = { r with lastAudioTime := la, trace := r.trace ++ evs } ∧
      written Track.video evs = [] ∧ pcReleases evs = 0 ∧ connReleases evs = 0 := by
  cases h : (env.transformDo r.trace packet).2 with
  | some e =>
    exact ⟨r.lastAudioTime, [Event.transformDo packet, Event.printTransformError],
      by simp [audioPath, h, List.append_assoc], by simp [written], by simp [pcReleases],
      by simp [connReleases]⟩
  | none =>
    obtain ⟨evs, h1, h2, -, h4, h5, -⟩ :=
      audioFold env packet (env.transformDo r.trace packet).1
        { r with trace := r.trace ++ [Event.transformDo packet] }
    refine ⟨lastTime r.lastAudioTime (env.transformDo r.trace packet).1,
      Event.transformDo packet :: evs, ?_, ?_, ?_, ?_⟩
    · simp only [audioPath, h, h1]
      simp [List.append_assoc]
    · have e : Event.transformDo packet :: evs = [Event.transformDo packet] ++ evs := rfl
      rw [e, written_append, h2]
      simp [written]
    · simpa [pcReleases] using h4
    · simpa [connReleases] using h5

theorem streamAt_congr (r r1 : RtmpRtcStreamer) (h : r1.streams = r.streams) (idx : Int) :
    streamAt r1 idx = streamAt r idx := by
  simp [streamAt, h]

theorem isVideoPacket_congr (r r1 : RtmpRtcStreamer) (h : r1.streams = r.streams) :
    isVideoPacket r1 = isVideoPacket r := by
  funext p
  simp [isVideoPacket, streamAt_congr r r1 h]

/-- One completed turn of the loop, seen from the video track. -/
theorem PullStreamPacket_counts (env : Env) (r r1 : RtmpRtcStreamer) (packet : Packet)
    (hrun : PullStreamPacket env r packet = .ok r1) :
    r1.streams = r.streams ∧
      r1.lastVideoTime = (if isVideoPacket r packet then packet.Time else r.lastVideoTime) ∧
      (written Track.video r1.trace).map Sample.Samples =
        (written Track.video r.trace).map Sample.Samples ++
          (if isVideoPacket r packet then [videoSamples r.lastVideoTime packet.Time] else []) := by
  cases hs : streamAt r packet.Idx with
  | error e => simp [PullStreamPacket, hs, bind, Except.bind] at hrun
  | ok s =>
    have hiv : isVideoPacket r packet = s.Type_.IsVideo := by simp [isVideoPacket, hs]
    cases hv : s.Type_.IsVideo with
    | true =>
      rw [PullStreamPacket_video env r packet s hs hv] at hrun
      obtain ⟨pre, smp, hpre, -, hsmp, hst⟩ := videoPath_result env r r1 packet hrun
      rw [hst]
      refine ⟨rfl, by simp [hiv, hv], ?_⟩
      simp only [written_append, written_printPrefix _ pre hpre, List.append_nil, hiv, hv]
      simp [written, hsmp]
    | false =>
      by_cases ha : s.Type_ = CodecType.AAC
      · rw [PullStreamPacket_audio env r packet s hs ha] at hrun
        injection hrun with hrun
        obtain ⟨la, evs, h1, h2, -, -⟩ := audioPath_frame env r packet
        rw [← hrun, h1]
        refine ⟨rfl, by simp [hiv, hv], ?_⟩
        simp only [written_append, h2, List.append_nil, hiv, hv]
        simp
      · have : PullStreamPacket env r packet = .ok r := by
          simp [PullStreamPacket, hs, hv, ha, bind, Except.bind, pure, Except.pure]
        rw [this] at hrun
        injection hrun with hrun
        rw [← hrun]
        exact ⟨rfl, by simp [hiv, hv], by simp [hiv, hv]⟩

/-- The counts a completed read loop forwarded to the video track: each
video packet is paired with the value `lastVideoTime` had before it. -/
theorem readLoop_counts (env : Env) (packets : List Packet) :
    ∀ r r1 : RtmpRtcStreamer, readLoop env r packets = .ok r1 →
      r1.streams = r.streams ∧
        (written Track.video r1.trace).map Sample.Samples =
          (written Track.video r.trace).map Sample.Samples ++
            List.zipWith videoSamples
              (r.lastVideoTime :: (packets.filter (isVideoPacket r)).map Packet.Time)
              ((packets.filter (isVideoPacket r)).map Packet.Time) := by
  induction packets with
  | nil =>
    intro r r1 h
    simp only [readLoop, Except.ok.injEq] at h
    subst h
    exact ⟨rfl, by simp⟩
  | cons p ps ih =>
    intro r r1 h
    simp only [readLoop] at h
    cases hstep : PullStreamPacket env r p with
    | error e => simp [hstep] at h
    | ok r2 =>
      simp only [hstep] at h
      obtain ⟨hstr, hlast, hw⟩ := PullStreamPacket_counts env r r2 p hstep
      obtain ⟨hstr2, hw2⟩ := ih r2 r1 h
      have hcongr := isVideoPacket_congr r r2 hstr
      refine ⟨hstr2.trans hstr, ?_⟩
      rw [hw2, hw, hlast, hcongr]
      cases hv : isVideoPacket r p <;> simp [List.filter_cons, hv]

theorem zipWith_getD (l : Int) (ts : List Int) :
    ∀ i, i < ts.length →
      (List.zipWith videoSamples (l :: ts) ts).getD i 0
        = videoSamples ((l :: ts).getD i 0) (ts.getD i 0) := by
  induction ts generalizing l with
  | nil => intro i hi; simp at hi
  | cons t rest ih =>
    intro i hi
    cases i with
    | zero => simp
    | succ j =>
      have hj : j < rest.length := by simpa using hi
      simpa using ih t j hj

theorem videoSamples_in_range (prev t : Int) (h0 : prev ≠ 0) (h1 : 0 ≤ t - prev)
    (h2 : t - prev ≤ 47721858844444) :
    (videoSamples prev t : Int) = (t - prev) * 90000 / 1000000000 := by
  obtain ⟨n, hn⟩ := Int.eq_ofNat_of_zero_le h1
  have hn2 : n ≤ 47721858844444 := by omega
  have e1 : ((n : Int) % 2 ^ 64).toNat = n := by
    have : ((n : Int) % 2 ^ 64) = n := Int.emod_eq_of_lt (by omega) (by omega)
    rw [this]; simp
  simp only [videoSamples, h0, if_false, hn, e1]
  have e2 : n * 90000 % 2 ^ 64 = n * 90000 := Nat.mod_eq_of_lt (by omega)
  rw [e2]
  have e3 : n * 90000 / 1000000000 % 2 ^ 32 = n * 90000 / 1000000000 :=
    Nat.mod_eq_of_lt (by omega)
  rw [e3]
  push_cast
  rfl

/-- C1 (amended): when the read loop has processed a sequence of packets, it
has forwarded one count for each video packet, in order.  With `prev` the
media time of the previous video packet (for the first one the initial
`lastVideoTime`, which is 0 on a new streamer): the count of the first video
packet is 0 when `prev` is 0; the count of a video packet with `prev` not 0
is `uint32(uint64(t - prev) * 90000 / 1000000000)` with Go's wrap-around,
which is `(t - prev) * 90000 / 1000000000` when
`0 ≤ t - prev ≤ 47721858844444`. -/
theorem video_sample_counts (env : Env) (r r1 : RtmpRtcStreamer) (packets : List Packet)
    (hrun : readLoop env r packets = .ok r1) :
    ∃ counts,
      (written Track.video r1.trace).map Sample.Samples =
        (written Track.video r.trace).map Sample.Samples ++ counts ∧
      counts.length = (packets.filter (isVideoPacket r)).length ∧
      ∀ i, i < counts.length →
        ∀ prev t : Int,
          prev = (r.lastVideoTime :: (packets.filter (isVideoPacket r)).map Packet.Time).getD i 0 →
          t = ((packets.filter (isVideoPacket r)).map Packet.Time).getD i 0 →
          (i = 0 → prev = 0 → counts.getD i 0 = 0) ∧
          (prev ≠ 0 → counts.getD i 0 =
            ((((t - prev) % 2 ^ 64).toNat * 90000 % 2 ^ 64) / 1000000000) % 2 ^ 32) ∧
          (prev ≠ 0 → 0 ≤ t - prev → t - prev ≤ 47721858844444 →
            (counts.getD i 0 : Int) = (t - prev) * 90000 / 1000000000) := by
  obtain ⟨-, hw⟩ := readLoop_counts env packets r r1 hrun
  refine ⟨_, hw, by simp, ?_⟩
  intro i hi prev t hprev ht
  have hi1 : i < ((packets.filter (isVideoPacket r)).map Packet.Time).length := by
    simpa using hi
  rw [zipWith_getD _ _ i hi1, ← hprev, ← ht]
  refine ⟨?_, ?_, ?_⟩
  · intro _ h0; simp [videoSamples, h0]
  · intro h0; simp [videoSamples, h0]
  · intro h0 h1 h2; exact videoSamples_in_range prev t h0 h1 h2

theorem video_sample_counts_witness :
    ∃ r1,
      readLoop quietEnv startedStreamer
        [videoPacket 1000000000 [5], videoPacket 2000000000 [0, 0, 0, 1, 9],
          videoPacket 3000000000 [0, 0, 0, 1, 101]] = .ok r1 ∧
      (written Track.video r1.trace).map Sample.Samples = [0, 90000, 90000] ∧
      ∃ counts,
        (written Track.video r1.trace).map Sample.Samples =
          (written Track.video startedStreamer.trace).map Sample.Samples ++ counts ∧
        counts.length = 3 ∧
        ∀ i, i < counts.length →
          ∀ prev t : Int,
            prev = ([0, 1000000000, 2000000000, 3000000000] : List Int).getD i 0 →
            t = ([1000000000, 2000000000, 3000000000] : List Int).getD i 0 →
            (i = 0 → prev = 0 → counts.getD i 0 = 0) ∧
            (prev ≠ 0 → counts.getD i 0 =
              ((((t - prev) % 2 ^ 64).toNat * 90000 % 2 ^ 64) / 1000000000) % 2 ^ 32) ∧
            (prev ≠ 0 → 0 ≤ t - prev → t - prev ≤ 47721858844444 →
              (counts.getD i 0 : Int) = (t - prev) * 90000 / 1000000000) :=
  ⟨_, rfl, by decide,
    video_sample_counts quietEnv startedStreamer _
      [videoPacket 1000000000 [5], videoPacket 2000000000 [0, 0, 0, 1, 9],
        videoPacket 3000000000 [0, 0, 0, 1, 101]] rfl⟩

/-- C1 as stated fails.  On a new streamer the video media times
`[0, 1000000000, 2000000000]` are forwarded with the counts `[0, 0, 90000]`,
not `[0, 90000, 90000]`: after the first packet `lastVideoTime` is 0 again.
And the media times `[1, 47721858844446]` are forwarded with the counts
`[0, 0]`, where the quotient `47721858844445 * 90000 / 1000000000` is
`4294967296`: the conversion to `uint32` cuts it to 0. -/
theorem video_sample_counts_counterexample :
    (PullStream quietEnv (NewRtmpRtcStreamer "rtmp://host/live")
        [videoPacket 0 [0, 0, 0, 1, 9], videoPacket 1000000000 [0, 0, 0, 1, 9],
          videoPacket 2000000000 [0, 0, 0, 1, 9]]).toOption.map
        (fun r1 => (written Track.video r1.trace).map Sample.Samples)
      = some [0, 0, 90000] ∧
    (PullStream quietEnv (NewRtmpRtcStreamer "rtmp://host/live")
        [videoPacket 0 [0, 0, 0, 1, 9], videoPacket 1000000000 [0, 0, 0, 1, 9],
          videoPacket 2000000000 [0, 0, 0, 1, 9]]).toOption.map
        (fun r1 => (written Track.video r1.trace).map Sample.Samples)
      ≠ some [0, 90000, 90000] ∧
    (PullStream quietEnv (NewRtmpRtcStreamer "rtmp://host/live")
        [videoPacket 1 [0, 0, 0, 1, 9], videoPacket 47721858844446 [0, 0, 0, 1, 9]]).toOption.map
        (fun r1 => (written Track.video r1.trace).map Sample.Samples)
      = some [0, 0] ∧
    (47721858844446 - 1 : Int) * 90000 / 1000000000 = 4294967296 := by
  decide

/-! ## What the operations leave alone -/

theorem configureFold (streams : List CodecData) :
    ∀ r : RtmpRtcStreamer, ∃ vc ac evs,
      streams.foldl configureStream r =
        { r with videoCodec := vc, audioCodec := ac, trace := r.trace ++ evs } ∧
      pcReleases evs = 0 ∧ connReleases evs = 0 := by
  induction streams with
  | nil => intro r; exact ⟨r.videoCodec, r.audioCodec, [], by simp, rfl, rfl⟩
  | cons st rest ih =>
    intro r
    obtain ⟨vc, ac, evs, h, h1, h2⟩ := ih (configureStream r st)
    cases st with
    | h264 c =>
      exact ⟨vc, ac, evs, by rw [List.foldl_cons, h]; simp [configureStream], h1, h2⟩
    | aac c =>
      refine ⟨vc, ac, Event.transformSetup c :: evs, ?_, ?_, ?_⟩
      · rw [List.foldl_cons, h]; simp [configureStream, List.append_assoc]
      · simpa [pcReleases] using h1
      · simpa [connReleases] using h2
    | other v =>
      exact ⟨vc, ac, evs, by rw [List.foldl_cons, h]; simp [configureStream], h1, h2⟩

theorem PullStreamStart_frame (env : Env) (r r1 : RtmpRtcStreamer)
    (h : PullStreamStart env r = .ok r1) :
    r1.closed = r.closed ∧ r1.localSDP = r.localSDP ∧
      pcReleases r1.trace = pcReleases r.trace ∧
      connReleases r1.trace = connReleases r.trace := by
  unfold PullStreamStart at h
  cases hd : env.Dial r.trace r.streamURL with
  | some e => simp [hd] at h
  | none =>
    simp only [hd] at h
    cases hst : (env.Streams (r.trace ++ [Event.dial r.streamURL])).2 with
    | some e => simp [hst] at h
    | none =>
      simp only [hst] at h
      obtain ⟨vc, ac, evs, hf, h1, h2⟩ :=
        configureFold (env.Streams (r.trace ++ [Event.dial r.streamURL])).1
          { r with conn := true, streams := (env.Streams (r.trace ++ [Event.dial r.streamURL])).1,
                   trace := (r.trace ++ [Event.dial r.streamURL]) ++ [Event.streamsCall] }
      rw [hf] at h
      injection h with h
      subst h
      refine ⟨rfl, rfl, ?_, ?_⟩
      · simp only [pcReleases, List.countP_append] at h1 ⊢
        simp [h1]
      · simp only [connReleases, List.countP_append] at h2 ⊢
        simp [h2]

theorem PullStreamPacket_frame (env : Env) (r r1 : RtmpRtcStreamer) (packet : Packet)
    (h : PullStreamPacket env r packet = .ok r1) :
    r1.closed = r.closed ∧ r1.localSDP = r.localSDP ∧
      pcReleases r1.trace = pcReleases r.trace ∧
      connReleases r1.trace = connReleases r.trace := by
  cases hs : streamAt r packet.Idx with
  | error e => simp [PullStreamPacket, hs, bind, Except.bind] at h
  | ok s =>
    cases hv : s.Type_.IsVideo with
    | true =>
      rw [PullStreamPacket_video env r packet s hs hv] at h
      obtain ⟨pre, smp, hpre, -, -, hst⟩ := videoPath_result env r r1 packet h
      rw [hst]
      rcases hpre with hp | hp <;>
        simp [hp, pcReleases, connReleases, List.countP_append]
    | false =>
      by_cases ha : s.Type_ = CodecType.AAC
      · rw [PullStreamPacket_audio env r packet s hs ha] at h
        injection h with h
        obtain ⟨la, evs, h1, -, h3, h4⟩ := audioPath_frame env r packet
        rw [← h, h1]
        refine ⟨rfl, rfl, ?_, ?_⟩
        · simp only [pcReleases, List.countP_append] at h3 ⊢
          simp [h3]
        · simp only [connReleases, List.countP_append] at h4 ⊢
          simp [h4]
      · have : PullStreamPacket env r packet = .ok r := by
          simp [PullStreamPacket, hs, hv, ha, bind, Except.bind, pure, Except.pure]
        rw [this] at h
        injection h with h
        rw [← h]
        exact ⟨rfl, rfl, rfl, rfl⟩

theorem GetLocalSDP_cached (env : Env) (r : RtmpRtcStreamer) (k : SDPType)
    (h : r.localSDP ≠ "") : GetLocalSDP env r k = (r, r.localSDP, none) := by
  simp [GetLocalSDP, h]

theorem Close_closed (r : RtmpRtcStreamer) (h : r.closed = true) : Close r = .ok r := by
  simp [Close, h]

theorem Close_dialled (r : RtmpRtcStreamer) (hc : r.closed = false) (hd : r.conn = true) :
    Close r = .ok { r with closed := true,
                           trace := (r.trace ++ [Event.pcClose]) ++ [Event.connClose] } := by
  simp [Close, hc, hd]

theorem Close_not_dialled (r : RtmpRtcStreamer) (hc : r.closed = false) (hd : r.conn = false) :
    Close r = .error Panic.nilPointerDereference := by
  simp [Close, hc, hd]

theorem step_frame (env : Env) (r r1 : RtmpRtcStreamer) (op : Op)
    (h : step env r op = .ok r1) :
    (r.closed = true → r1.closed = true ∧ pcReleases r1.trace = pcReleases r.trace ∧
      connReleases r1.trace = connReleases r.trace) ∧
    (r.localSDP ≠ "" → r1.localSDP = r.localSDP) := by
  cases op with
  | GetLocalSDP k =>
    simp only [step, Except.ok.injEq] at h
    subst h
    constructor
    · intro hc
      by_cases he : r.localSDP = ""
      · by_cases hk : k = SDPType.Offer <;>
          simp [GetLocalSDP, he, hk, hc, pcReleases, connReleases, List.countP_append]
      · simp [GetLocalSDP_cached env r k he, hc]
    · intro he
      simp [GetLocalSDP_cached env r k he]
  | SetRemoteSDP sdp k =>
    simp only [step, Except.ok.injEq] at h
    subst h
    exact ⟨fun hc => by simp [SetRemoteSDP, hc, pcReleases, connReleases, List.countP_append],
      fun _ => rfl⟩
  | onConnectionState c =>
    simp only [step, Except.ok.injEq] at h
    subst h
    cases c <;>
      exact ⟨fun hc => by
        simp [onConnectionState, hc, pcReleases, connReleases, List.countP_append],
        fun _ => by simp [onConnectionState]⟩
  | Close =>
    simp only [step] at h
    cases hc : r.closed with
    | true =>
      rw [Close_closed r hc] at h
      injection h with h
      subst h
      exact ⟨fun _ => ⟨hc, rfl, rfl⟩, fun _ => rfl⟩
    | false =>
      cases hd : r.conn with
      | false => rw [Close_not_dialled r hc hd] at h; simp at h
      | true =>
        rw [Close_dialled r hc hd] at h
        injection h with h
        subst h
        exact ⟨fun hc1 => by simp [hc] at hc1, fun _ => rfl⟩
  | PullStreamStart =>
    obtain ⟨h1, h2, h3, h4⟩ := PullStreamStart_frame env r r1 h
    exact ⟨fun hc => ⟨h1.trans hc, h3, h4⟩, fun _ => h2⟩
  | PullStreamPacket p =>
    obtain ⟨h1, h2, h3, h4⟩ := PullStreamPacket_frame env r r1 p h
    exact ⟨fun hc => ⟨h1.trans hc, h3, h4⟩, fun _ => h2⟩

theorem run_frame (env : Env) (ops : List Op) :
    ∀ r r1 : RtmpRtcStreamer, run env r ops = .ok r1 →
      (r.closed = true → r1.closed = true ∧ pcReleases r1.trace = pcReleases r.trace ∧
        connReleases r1.trace = connReleases r.trace) ∧
      (r.localSDP ≠ "" → r1.localSDP = r.localSDP) := by
  induction ops with
  | nil =>
    intro r r1 h
    simp only [run, Except.ok.injEq] at h
    subst h
    exact ⟨fun hc => ⟨hc, rfl, rfl⟩, fun _ => rfl⟩
  | cons op rest ih =>
    intro r r1 h
    simp only [run] at h
    cases hs : step env r op with
    | error e => simp [hs] at h
    | ok r2 =>
      simp only [hs] at h
      obtain ⟨a1, a2⟩ := step_frame env r r2 op hs
      obtain ⟨b1, b2⟩ := ih r2 r1 h
      constructor
      · intro hc
        obtain ⟨c1, c2, c3⟩ := a1 hc
        obtain ⟨d1, d2, d3⟩ := b1 c1
        exact ⟨d1, d2.trans c2, d3.trans c3⟩
      · intro he
        have e2 := a2 he
        rw [← e2]
        exact b2 (by rw [e2]; exact he)

/-! ## Signalling and teardown -/

theorem GetLocalSDP_synthesises (env : Env) (a : RtmpRtcStreamer) (k : SDPType)
    (h : a.localSDP = "") :
    syntheses (GetLocalSDP env a k).1.trace = syntheses a.trace + 1 := by
  by_cases hk : k = SDPType.Offer <;>
    simp [GetLocalSDP, h, hk, syntheses, List.countP_append]

/-- C5 (amended): when the first `GetLocalSDP` call returns a non-empty
string, a second call (any kinds) returns the same string and changes
nothing; when it returns the empty string nothing is cached and the second
call synthesises again.  Once `localSDP` is non-empty no sequence of
operations changes it, and every later `GetLocalSDP` returns it with a nil
error and leaves the streamer, its trace included, as it was. -/
theorem local_sdp_cache (env : Env) (r : RtmpRtcStreamer) (k1 k2 : SDPType) :
    ((GetLocalSDP env r k1).2.1 ≠ "" →
      (GetLocalSDP env (GetLocalSDP env r k1).1 k2).2.1 = (GetLocalSDP env r k1).2.1 ∧
      (GetLocalSDP env (GetLocalSDP env r k1).1 k2).1 = (GetLocalSDP env r k1).1) ∧
    ((GetLocalSDP env r k1).2.1 = "" →
      syntheses (GetLocalSDP env (GetLocalSDP env r k1).1 k2).1.trace
        = syntheses (GetLocalSDP env r k1).1.trace + 1) ∧
    (r.localSDP ≠ "" → ∀ ops r1 k, run env r ops = .ok r1 →
      r1.localSDP = r.localSDP ∧ GetLocalSDP env r1 k = (r1, r.localSDP, none)) := by
  have hret : (GetLocalSDP env r k1).2.1 = (GetLocalSDP env r k1).1.localSDP := by
    by_cases he : r.localSDP = "" <;> simp [GetLocalSDP, he]
  refine ⟨?_, ?_, ?_⟩
  · intro h
    rw [hret] at h
    rw [GetLocalSDP_cached env _ k2 h, hret]
    exact ⟨rfl, rfl⟩
  · intro h
    rw [hret] at h
    exact GetLocalSDP_synthesises env _ k2 h
  · intro he ops r1 k hrun
    have h1 := (run_frame env ops r r1 hrun).2 he
    refine ⟨h1, ?_⟩
    rw [GetLocalSDP_cached env r1 k (by rw [h1]; exact he), h1]

theorem local_sdp_cache_witness :
    ((GetLocalSDP quietEnv (NewRtmpRtcStreamer "rtmp://host/live") SDPType.Offer).2.1 ≠ "" ∧
      (GetLocalSDP quietEnv (NewRtmpRtcStreamer "rtmp://host/live") SDPType.Offer).2.1 = "v=0") ∧
    (GetLocalSDP quietEnv
        (GetLocalSDP quietEnv (NewRtmpRtcStreamer "rtmp://host/live") SDPType.Offer).1
        SDPType.Answer).2.1
      = (GetLocalSDP quietEnv (NewRtmpRtcStreamer "rtmp://host/live") SDPType.Offer).2.1 :=
  ⟨⟨by decide, by decide⟩,
    ((local_sdp_cache quietEnv (NewRtmpRtcStreamer "rtmp://host/live") SDPType.Offer
      SDPType.Answer).1 (by decide)).1⟩

/-- C5 as stated fails: on a new streamer `GetLocalSDP(Answer)` whose
`CreateAnswer` fails with an empty description returns the empty string (and
an error), and the following `GetLocalSDP(Offer)` synthesises an offer and
returns `v=0`. -/
theorem local_sdp_counterexample :
    (GetLocalSDP answerFailsEnv (NewRtmpRtcStreamer "rtmp://host/live") SDPType.Answer).2
      = ("", some "empty description") ∧
    (GetLocalSDP answerFailsEnv
        (GetLocalSDP answerFailsEnv (NewRtmpRtcStreamer "rtmp://host/live") SDPType.Answer).1
        SDPType.Offer).2 = ("v=0", none) ∧
    (GetLocalSDP answerFailsEnv
        (GetLocalSDP answerFailsEnv (NewRtmpRtcStreamer "rtmp://host/live") SDPType.Answer).1
        SDPType.Offer).2.1
      ≠ (GetLocalSDP answerFailsEnv (NewRtmpRtcStreamer "rtmp://host/live") SDPType.Answer).2.1 := by
  decide

theorem answerFailsEnv_rejects :
    ∀ tr,
      ((answerFailsEnv.CreateOffer tr).2 ≠ none →
        answerFailsEnv.SetLocalDescription (tr ++ [Event.createOffer])
          (answerFailsEnv.CreateOffer tr).1 ≠ none) ∧
      ((answerFailsEnv.CreateAnswer tr).2 ≠ none →
        answerFailsEnv.SetLocalDescription (tr ++ [Event.createAnswer])
          (answerFailsEnv.CreateAnswer tr).1 ≠ none) := by
  intro tr
  constructor
  · intro h; exact absurd rfl h
  · intro _; simp [answerFailsEnv]

/-- C6: with a peer connection whose `SetLocalDescription` rejects the
description that a failed `CreateOffer` or `CreateAnswer` returned (the
error of the synthesis itself is overwritten on line 107), `GetLocalSDP` on a
streamer without cached description returns a non-nil error whenever the
synthesis fails and whenever `SetLocalDescription` fails, and a nil error
only when both succeed. -/
theorem local_sdp_errors (env : Env) (r : RtmpRtcStreamer) (k : SDPType)
    (he : r.localSDP = "")
    (hpc : ∀ tr,
      ((env.CreateOffer tr).2 ≠ none →
        env.SetLocalDescription (tr ++ [Event.createOffer]) (env.CreateOffer tr).1 ≠ none) ∧
      ((env.CreateAnswer tr).2 ≠ none →
        env.SetLocalDescription (tr ++ [Event.createAnswer]) (env.CreateAnswer tr).1 ≠ none)) :
    (k = SDPType.Offer →
      ((env.CreateOffer r.trace).2 ≠ none → (GetLocalSDP env r k).2.2 ≠ none) ∧
      (env.SetLocalDescription (r.trace ++ [Event.createOffer]) (env.CreateOffer r.trace).1
          ≠ none → (GetLocalSDP env r k).2.2 ≠ none) ∧
      ((GetLocalSDP env r k).2.2 = none →
        (env.CreateOffer r.trace).2 = none ∧
        env.SetLocalDescription (r.trace ++ [Event.createOffer]) (env.CreateOffer r.trace).1
          = none)) ∧
    (k ≠ SDPType.Offer →
      ((env.CreateAnswer r.trace).2 ≠ none → (GetLocalSDP env r k).2.2 ≠ none) ∧
      (env.SetLocalDescription (r.trace ++ [Event.createAnswer]) (env.CreateAnswer r.trace).1
          ≠ none → (GetLocalSDP env r k).2.2 ≠ none) ∧
      ((GetLocalSDP env r k).2.2 = none →
        (env.CreateAnswer r.trace).2 = none ∧
        env.SetLocalDescription (r.trace ++ [Event.createAnswer]) (env.CreateAnswer r.trace).1
          = none)) := by
  constructor
  · intro hk
    have herr : (GetLocalSDP env r k).2.2 =
        env.SetLocalDescription (r.trace ++ [Event.createOffer]) (env.CreateOffer r.trace).1 := by
      simp [GetLocalSDP, he, hk]
    rw [herr]
    refine ⟨(hpc r.trace).1, fun h => h, fun h => ⟨?_, h⟩⟩
    by_contra hc
    exact (hpc r.trace).1 hc h
  · intro hk
    have herr : (GetLocalSDP env r k).2.2 =
        env.SetLocalDescription (r.trace ++ [Event.createAnswer]) (env.CreateAnswer r.trace).1 := by
      simp [GetLocalSDP, he, hk]
    rw [herr]
    refine ⟨(hpc r.trace).2, fun h => h, fun h => ⟨?_, h⟩⟩
    by_contra hc
    exact (hpc r.trace).2 hc h

theorem local_sdp_errors_witness :
    ((NewRtmpRtcStreamer "rtmp://host/live").localSDP = "" ∧
      (answerFailsEnv.CreateAnswer (NewRtmpRtcStreamer "rtmp://host/live").trace).2
        = some "no remote description") ∧
    (GetLocalSDP answerFailsEnv (NewRtmpRtcStreamer "rtmp://host/live") SDPType.Answer).2.2
      ≠ none :=
  ⟨⟨rfl, rfl⟩,
    ((local_sdp_errors answerFailsEnv (NewRtmpRtcStreamer "rtmp://host/live") SDPType.Answer
      rfl answerFailsEnv_rejects).2 (by decide)).1 (by decide)⟩

/-- On a closed streamer, and on an open one whose connection was dialled,
`Close` returns, the state it leaves is closed and a second `Close` leaves
it as it is; from the open one the two calls make one `pc.Close()` and one
`conn.Close()` call; from a closed streamer no sequence of operations opens
it again or makes a further `pc.Close()` or `conn.Close()` call. -/
theorem Close_twice (r : RtmpRtcStreamer) (h : r.closed = true ∨ r.conn = true) :
    (∃ r1, Close r = .ok r1 ∧ Close r1 = .ok r1 ∧ r1.closed = true ∧
      (r.closed = false →
        pcReleases r1.trace = pcReleases r.trace + 1 ∧
        connReleases r1.trace = connReleases r.trace + 1) ∧
      (r.closed = true → r1 = r)) ∧
    (r.closed = true → ∀ (env : Env) (ops : List Op) (r1 : RtmpRtcStreamer),
      run env r ops = .ok r1 →
        r1.closed = true ∧ pcReleases r1.trace = pcReleases r.trace ∧
          connReleases r1.trace = connReleases r.trace) := by
  constructor
  · cases hc : r.closed with
    | true =>
      exact ⟨r, Close_closed r hc, Close_closed r hc, hc, fun h1 => by simp at h1, fun _ => rfl⟩
    | false =>
      have hd : r.conn = true := by
        rcases h with h | h
        · rw [hc] at h; simp at h
        · exact h
      refine ⟨_, Close_dialled r hc hd, Close_closed _ rfl, rfl, fun _ => ?_, fun h1 => by simp at h1⟩
      simp [pcReleases, connReleases, List.countP_append]
  · intro hc env ops r1 hrun
    exact (run_frame env ops r r1 hrun).1 hc

/-- C7, the code at the failing input: the streamer `NewRtmpRtcStreamer`
returns is open and its connection is not set, and `Close` on it panics with
a nil pointer dereference in `r.conn.Close()`, as on every open streamer
whose connection is not set. -/
theorem Close_new_streamer_panics :
    (NewRtmpRtcStreamer "rtmp://host/live").closed = false ∧
    (NewRtmpRtcStreamer "rtmp://host/live").conn = false ∧
    Close (NewRtmpRtcStreamer "rtmp://host/live") = .error Panic.nilPointerDereference ∧
    (∀ r : RtmpRtcStreamer, r.closed = false → r.conn = false →
      Close r = .error Panic.nilPointerDereference) :=
  ⟨rfl, rfl, rfl, Close_not_dialled⟩

end RtcRtmp
